import Mathlib

/-! Camera adapter of the Qt frontend, `citra_qt/camera/qt_multimedia_camera.cpp`.

A shallow embedding of the handler pool, the camera object and the video
surface of `qt_multimedia_camera.cpp`, followed by the properties proved of
them.

Conventions of the embedding:
* a `std::shared_ptr<QtMultimediaCameraHandler>` is the address it stores,
  `none` being `nullptr`; two shared pointers are equal when the addresses are;
* the handler objects live in a heap, a list indexed by address;
  `std::make_shared` appends a fresh object and returns its address;
* a call through a null pointer is a fault (`none` as the result).
-/

namespace Camera

/-! ## Data model -/

/-- Identity of a thread, the value of `QThread::currentThread()`. -/
abbrev ThreadId := Nat

/-- A `std::shared_ptr<QtMultimediaCameraHandler>`: the stored address, `none` for `nullptr`. -/
abbrev HandlerPtr := Option Nat

/-- A `QImage` as a value: its pixel bytes, its size and its `QImage::Format`. -/
structure QImage where
  bits : List Nat
  width : Nat
  height : Nat
  format : Nat
  deriving DecidableEq, Repr

/-- The value of `QImage::Format_Invalid`. -/
def QImage.Format_Invalid : Nat := 0

/-- The null image, `QImage()`: no bytes, size 0 by 0, format `Format_Invalid`. -/
def QImage.null : QImage :=
  { bits := [], width := 0, height := 0, format := QImage.Format_Invalid }

/-- The constructor `QImage(uchar* data, int width, int height, Format format)`
of an image over existing bytes: the toolkit gives the null image when `data`
is null, when the width or the height is not positive, or when the format is
`Format_Invalid`, and otherwise the image of those bytes, size and format. -/
def QImage.ofData (data : Option (List Nat)) (width height format : Nat) : QImage :=
  match data with
  | none => QImage.null
  | some bytes =>
    if width = 0 ∨ height = 0 ∨ format = QImage.Format_Invalid then QImage.null
    else { bits := bytes, width := width, height := height, format := format }

/-- `QImage::copy()`: a deep copy, equal to the image as a value (a null image
for a null image). -/
def QImage.copy (image : QImage) : QImage :=
  { bits := image.bits, width := image.width, height := image.height, format := image.format }

/-- A `QVideoFrame` as the surface sees it: `isValid()`, the pixel bytes of its
buffer, `width()`, `height()`, `pixelFormat()` (the value of the
`QVideoFrame::PixelFormat`), whether `map` can map the buffer into memory, and
whether it is mapped now. -/
structure QVideoFrame where
  isValid : Bool
  buffer : List Nat
  width : Nat
  height : Nat
  pixelFormat : Nat
  mappable : Bool
  mapped : Bool
  deriving DecidableEq, Repr

/-- `QVideoFrame::map(QAbstractVideoBuffer::ReadOnly)`: the buffer becomes
readable through `bits()` when it can be mapped. The call answers whether it
did, and `present` drops the answer. -/
def QVideoFrame.map (frame : QVideoFrame) : QVideoFrame :=
  { frame with mapped := frame.mappable }

/-- `QVideoFrame::bits()`: the bytes of the buffer while it is mapped, a null
pointer otherwise. -/
def QVideoFrame.bits (frame : QVideoFrame) : Option (List Nat) :=
  if frame.mapped then some frame.buffer else none

/-- `QtCameraSurface`, the video surface of a handler: the last frame it was
presented, as an image. (Its `QMutex mutex` is modelled with the threads, below.) -/
structure QtCameraSurface where
  current_frame : QImage
  deriving DecidableEq, Repr

/-- A `QCamera`: whether it is capturing (between `start()` and `stop()`), what
`isAvailable()` answers, and whether a viewfinder was set. -/
structure QCamera where
  active : Bool
  isAvailable : Bool
  viewfinder : Bool
  deriving DecidableEq, Repr

/-- Modelled from the spec: the class declaration of `QtMultimediaCameraHandler`
is in `qt_multimedia_camera.h`, which is not among the sources. A handler object is a
`QObject` (it has the `thread()` it lives on) with a member
`std::unique_ptr<QCamera> camera`, which only `CreateCamera` assigns and
`CameraAvailable` tests for null, and a member `QtCameraSurface camera_surface`. -/
structure QtMultimediaCameraHandler where
  thread : ThreadId
  camera : Option QCamera
  camera_surface : QtCameraSurface
  deriving DecidableEq, Repr

/-- The two static arrays of `QtMultimediaCameraHandler`:
`std::array<std::shared_ptr<QtMultimediaCameraHandler>, 2> handlers` and
`std::array<bool, 2> status`. -/
structure Pool where
  handlers : Fin 2 → HandlerPtr
  status : Fin 2 → Bool

/-- The static arrays as the program starts: statics are zero-initialised, so
every handler is `nullptr` and every status is `false`. -/
def Pool.static_init : Pool :=
  { handlers := fun _ => none, status := fun _ => false }

/-- The memory the adapter works on: the handler objects allocated so far, by
address, and the static pool. -/
structure World where
  heap : List QtMultimediaCameraHandler
  pool : Pool

/-- The memory as the program starts: no handler object, the statics zero-initialised. -/
def World.static_init : World := { heap := [], pool := Pool.static_init }

/-- The object a shared pointer refers to; `none` for `nullptr` (and for an
address nothing was allocated at). -/
def World.deref (w : World) (ptr : HandlerPtr) : Option QtMultimediaCameraHandler :=
  ptr.bind fun a => w.heap[a]?

/-- Writes an object back at its address. -/
def World.store (w : World) (a : Nat) (h : QtMultimediaCameraHandler) : World :=
  { w with heap := w.heap.set a h }

/-- Modelled from the spec: `Service::CAM::OutputFormat` is declared in the
camera service of the emulator, not among the sources; the adapter tests for `RGB565`. -/
inductive OutputFormat where
  | YUV422
  | RGB565
  deriving DecidableEq, Repr

/-- Modelled from the spec: `Service::CAM::Flip` is declared in the camera
service of the emulator, not among the sources; the adapter names `Horizontal`, `Vertical`
and `Reverse`, and `None` is the remaining value. -/
inductive Flip where
  | None
  | Horizontal
  | Vertical
  | Reverse
  deriving DecidableEq, Repr

/-- Modelled from the spec: `Service::CAM::Effect` is declared in the camera
service of the emulator, not among the sources; the adapter only tests for `None`. -/
inductive Effect where
  | None
  | other (code : Nat)
  deriving DecidableEq, Repr

/-- Modelled from the spec: `Service::CAM::Resolution` is declared in the camera
service of the emulator, not among the sources; the adapter reads its `width` and `height`. -/
structure Resolution where
  width : Nat
  height : Nat
  deriving DecidableEq, Repr

/-- The data members of a `QtMultimediaCamera`: the handler it acquired and the
output settings. -/
structure QtMultimediaCamera where
  handler : HandlerPtr
  width : Nat
  height : Nat
  output_rgb : Bool
  flip_horizontal : Bool
  flip_vertical : Bool
  deriving DecidableEq, Repr

/-! ## The handler pool -/

/-- The loop of `GetHandler`, over the indices `i` still to visit:
`if (!status[i]) { status[i] = true; return handlers[i]; }`, and `return nullptr`
once the indices are exhausted. -/
def GetHandler.loop (p : Pool) : List (Fin 2) → HandlerPtr × Pool
  | [] => (none, p)
  | i :: rest =>
    if !p.status i then
      (p.handlers i, { p with status := Function.update p.status i true })
    else
      GetHandler.loop p rest

/-- `QtMultimediaCameraHandler::GetHandler`: the loop runs `i` over
`0 .. handlers.size() - 1`. The result is the returned pointer and the pool
after the call. -/
def GetHandler (p : Pool) : HandlerPtr × Pool :=
  GetHandler.loop p [0, 1]

/-- The loop of `ReleaseHandler`, over the indices `i` still to visit:
`if (handlers[i] == handler) { status[i] = false; break; }`. -/
def ReleaseHandler.loop (p : Pool) (handler : HandlerPtr) : List (Fin 2) → Pool
  | [] => p
  | i :: rest =>
    if p.handlers i = handler then
      { p with status := Function.update p.status i false }
    else
      ReleaseHandler.loop p handler rest

/-- `QtMultimediaCameraHandler::ReleaseHandler`. -/
def ReleaseHandler (p : Pool) (handler : HandlerPtr) : Pool :=
  ReleaseHandler.loop p handler [0, 1]

/-- The object `std::make_shared<QtMultimediaCameraHandler>()` constructs on the
thread `cur`: a `QObject` lives on the thread that creates it, the
`unique_ptr` member `camera` starts null, the surface holds no frame. -/
def QtMultimediaCameraHandler.new (cur : ThreadId) : QtMultimediaCameraHandler :=
  { thread := cur, camera := none, camera_surface := { current_frame := QImage.null } }

/-- `std::make_shared<QtMultimediaCameraHandler>()` called on the thread `cur`:
the new object takes the next address of the heap, and the pointer to it is returned. -/
def make_shared (cur : ThreadId) (heap : List QtMultimediaCameraHandler) :
    HandlerPtr × List QtMultimediaCameraHandler :=
  (some heap.length, heap ++ [QtMultimediaCameraHandler.new cur])

/-- `QtMultimediaCameraHandler::Init`, called on the thread `cur`: the two
elements of `handlers` are assigned two newly made handlers, in order; `status`
is not written. -/
def Init (cur : ThreadId) (w : World) : World :=
  let r0 := make_shared cur w.heap
  let handlers0 := Function.update w.pool.handlers 0 r0.1
  let r1 := make_shared cur r0.2
  let handlers1 := Function.update handlers0 1 r1.1
  { heap := r1.2, pool := { handlers := handlers1, status := w.pool.status } }

/-- What `Init` leaves in `handlers`: two non-null pointers to two different
objects. `GetHandler` and `ReleaseHandler` never write `handlers`, so this holds
of every pool state after `Init`. -/
def AfterInit (p : Pool) : Prop :=
  (∃ a, p.handlers 0 = some a) ∧ (∃ b, p.handlers 1 = some b) ∧ p.handlers 0 ≠ p.handlers 1

/-- A handler counts as held in a pool state when a slot stores it and is marked taken. -/
def Held (p : Pool) (a : Nat) : Prop :=
  ∃ i : Fin 2, p.handlers i = some a ∧ p.status i = true

/-- A call made on the pool by a client. -/
inductive PoolCall where
  | get
  | release (handler : HandlerPtr)
  deriving DecidableEq, Repr

/-- The pool after one call (the pointer `get` returns is dropped). -/
def PoolCall.run (p : Pool) : PoolCall → Pool
  | .get => (GetHandler p).2
  | .release handler => ReleaseHandler p handler

/-- The pool after a sequence of calls, made in order. -/
def runCalls (p : Pool) (calls : List PoolCall) : Pool :=
  calls.foldl PoolCall.run p

/-! ## The methods of a handler -/

/-- `QtMultimediaCameraHandler::CreateCamera`: `camera` becomes a new `QCamera`
(`available` is what the host answers for it) with the surface as its viewfinder. -/
def QtMultimediaCameraHandler.CreateCamera (available : Bool)
    (h : QtMultimediaCameraHandler) : QtMultimediaCameraHandler :=
  { h with camera := some { active := false, isAvailable := available, viewfinder := true } }

/-- `QtMultimediaCameraHandler::StopCamera`: `camera->stop()`, a fault when
`camera` is null. -/
def QtMultimediaCameraHandler.StopCamera (h : QtMultimediaCameraHandler) :
    Option QtMultimediaCameraHandler :=
  match h.camera with
  | none => none
  | some c => some { h with camera := some { c with active := false } }

/-- `QtMultimediaCameraHandler::StartCamera`: `camera->start()`, a fault when
`camera` is null. -/
def QtMultimediaCameraHandler.StartCamera (h : QtMultimediaCameraHandler) :
    Option QtMultimediaCameraHandler :=
  match h.camera with
  | none => none
  | some c => some { h with camera := some { c with active := true } }

/-- `QtMultimediaCameraHandler::CameraAvailable`: `camera && camera->isAvailable()`. -/
def QtMultimediaCameraHandler.CameraAvailable (h : QtMultimediaCameraHandler) : Bool :=
  match h.camera with
  | none => false
  | some c => c.isAvailable

/-- The loop of `onEmulationPause` over the elements of `handlers` still to
visit: `handler->StopCamera()` on each, a fault when the element is null. -/
def onEmulationPause.loop : List (Fin 2) → World → Option World
  | [], w => some w
  | i :: rest, w =>
    match w.pool.handlers i with
    | none => none
    | some a =>
      match w.heap[a]? with
      | none => none
      | some h =>
        match h.StopCamera with
        | none => none
        | some h1 => onEmulationPause.loop rest (w.store a h1)

/-- `QtMultimediaCameraHandler::onEmulationPause`: `for (auto& handler : handlers)`. -/
def onEmulationPause (w : World) : Option World :=
  onEmulationPause.loop [0, 1] w

/-- The loop of `onEmulationResume` over the elements of `handlers` still to
visit: `if (handler->CameraAvailable()) handler->StartCamera()`. -/
def onEmulationResume.loop : List (Fin 2) → World → Option World
  | [], w => some w
  | i :: rest, w =>
    match w.pool.handlers i with
    | none => none
    | some a =>
      match w.heap[a]? with
      | none => none
      | some h =>
        if h.CameraAvailable then
          match h.StartCamera with
          | none => none
          | some h1 => onEmulationResume.loop rest (w.store a h1)
        else
          onEmulationResume.loop rest w

/-- `QtMultimediaCameraHandler::onEmulationResume`: `for (auto& handler : handlers)`. -/
def onEmulationResume (w : World) : Option World :=
  onEmulationResume.loop [0, 1] w

/-! ## The video surface -/

/-- `QtCameraSurface::present`. An invalid frame is refused with `false`.
Otherwise the frame is cloned and the clone mapped, an image is constructed
over `cloneFrame.bits()` with the size of the frame and the image format of its
pixel format (`imageFormatFromPixelFormat` is the toolkit's conversion
`QVideoFrame::imageFormatFromPixelFormat`), and a copy of that image is stored
in `current_frame` under the mutex; the clone, unmapped at the end, is local to
the call. The result is the returned flag and the surface after the call. -/
def QtCameraSurface.present (imageFormatFromPixelFormat : Nat → Nat)
    (surface : QtCameraSurface) (frame : QVideoFrame) : Bool × QtCameraSurface :=
  if !frame.isValid then
    (false, surface)
  else
    let cloneFrame := frame.map
    let image : QImage :=
      QImage.ofData cloneFrame.bits cloneFrame.width cloneFrame.height
        (imageFormatFromPixelFormat cloneFrame.pixelFormat)
    (true, { surface with current_frame := image.copy })

/-- The toolkit presenting a frame to the surface of the handler a pointer
refers to (the viewfinder `CreateCamera` sets): the memory after the call. -/
def World.present (imageFormatFromPixelFormat : Nat → Nat) (w : World) (handler : HandlerPtr)
    (frame : QVideoFrame) : World :=
  match handler with
  | none => w
  | some a =>
    match w.heap[a]? with
    | none => w
    | some h =>
      w.store a
        { h with camera_surface :=
            (h.camera_surface.present imageFormatFromPixelFormat frame).2 }

/-! ## The camera object -/

/-- A handler method a camera calls. -/
inductive HandlerMethod where
  | CreateCamera (available : Bool)
  | StartCamera
  | StopCamera
  deriving DecidableEq, Repr

/-- The body of a handler method, run on the handler object. -/
def HandlerMethod.body : HandlerMethod → QtMultimediaCameraHandler →
    Option QtMultimediaCameraHandler
  | .CreateCamera available, h => some (h.CreateCamera available)
  | .StartCamera, h => h.StartCamera
  | .StopCamera, h => h.StopCamera

/-- One execution of a handler method: the thread that ran its body, and the method. -/
structure Execution where
  thread : ThreadId
  method : HandlerMethod
  deriving DecidableEq, Repr

/-- A plain call `handler->method()` made on the thread `cur`: the body runs on
`cur`. A fault when `handler` is null or the body faults. -/
def callDirect (w : World) (handler : HandlerPtr) (cur : ThreadId) (m : HandlerMethod) :
    Option (World × Execution) :=
  match handler with
  | none => none
  | some a =>
    match w.heap[a]? with
    | none => none
    | some h =>
      match m.body h with
      | none => none
      | some h1 => some (w.store a h1, { thread := cur, method := m })

/-- The call `QMetaObject::invokeMethod(handler.get(), "method", Qt::BlockingQueuedConnection)`
made on the thread `cur`: the call is queued to the thread the receiver lives
on, which runs the body while `cur` waits. No result when the receiver lives on
`cur` itself, which then waits for ever. -/
def invokeMethod (w : World) (handler : HandlerPtr) (cur : ThreadId) (m : HandlerMethod) :
    Option (World × Execution) :=
  match handler with
  | none => none
  | some a =>
    match w.heap[a]? with
    | none => none
    | some h =>
      if h.thread = cur then none
      else
        match m.body h with
        | none => none
        | some h1 => some (w.store a h1, { thread := h.thread, method := m })

/-- The constructor `QtMultimediaCamera::QtMultimediaCamera`, run on the thread
`cur`: `handler` is initialised from `GetHandler()`, then `CreateCamera` is
called on it, directly when the handler lives on `cur` and through a blocking
queued invocation otherwise. `members` are the values the other data members
start with, `available` what the host answers for the new `QCamera`. -/
def QtMultimediaCamera.new (members : QtMultimediaCamera) (available : Bool) (w : World)
    (cur : ThreadId) : Option (World × QtMultimediaCamera × Execution) :=
  let r := GetHandler w.pool
  let w1 : World := { w with pool := r.2 }
  let cam : QtMultimediaCamera := { members with handler := r.1 }
  match w1.deref cam.handler with
  | none => none
  | some h =>
    let done :=
      if h.thread = cur then
        callDirect w1 cam.handler cur (.CreateCamera available)
      else
        invokeMethod w1 cam.handler cur (.CreateCamera available)
    done.map fun d => (d.1, cam, d.2)

/-- `QtMultimediaCamera::StartCapture`, run on the thread `cur`. -/
def QtMultimediaCamera.StartCapture (cam : QtMultimediaCamera) (w : World) (cur : ThreadId) :
    Option (World × Execution) :=
  match w.deref cam.handler with
  | none => none
  | some h =>
    if h.thread = cur then
      callDirect w cam.handler cur .StartCamera
    else
      invokeMethod w cam.handler cur .StartCamera

/-- `QtMultimediaCamera::StopCapture`, run on the thread `cur`: `handler->StopCamera()`. -/
def QtMultimediaCamera.StopCapture (cam : QtMultimediaCamera) (w : World) (cur : ThreadId) :
    Option (World × Execution) :=
  callDirect w cam.handler cur .StopCamera

/-- `QtMultimediaCamera::OnServicePaused`, run on the thread `cur`: `handler->StopCamera()`. -/
def QtMultimediaCamera.OnServicePaused (cam : QtMultimediaCamera) (w : World) (cur : ThreadId) :
    Option (World × Execution) :=
  callDirect w cam.handler cur .StopCamera

/-- `QtMultimediaCamera::OnServiceResumed`, run on the thread `cur`: `handler->StartCamera()`. -/
def QtMultimediaCamera.OnServiceResumed (cam : QtMultimediaCamera) (w : World) (cur : ThreadId) :
    Option (World × Execution) :=
  callDirect w cam.handler cur .StartCamera

/-- `QtMultimediaCamera::SetFormat`. -/
def QtMultimediaCamera.SetFormat (cam : QtMultimediaCamera) (output_format : OutputFormat) :
    QtMultimediaCamera :=
  { cam with output_rgb := decide (output_format = OutputFormat.RGB565) }

/-- `QtMultimediaCamera::SetResolution`. -/
def QtMultimediaCamera.SetResolution (cam : QtMultimediaCamera) (resolution : Resolution) :
    QtMultimediaCamera :=
  { cam with width := resolution.width, height := resolution.height }

/-- `QtMultimediaCamera::SetFlip`. -/
def QtMultimediaCamera.SetFlip (cam : QtMultimediaCamera) (flip : Flip) : QtMultimediaCamera :=
  { cam with
    flip_horizontal := decide (flip = Flip.Horizontal) || decide (flip = Flip.Reverse),
    flip_vertical := decide (flip = Flip.Vertical) || decide (flip = Flip.Reverse) }

/-- `QtMultimediaCamera::SetEffect`: an effect other than `None` is logged as
unimplemented; no member is written. -/
def QtMultimediaCamera.SetEffect (cam : QtMultimediaCamera) (effect : Effect) :
    QtMultimediaCamera :=
  if effect ≠ Effect.None then cam else cam

/-- `QtMultimediaCamera::ReceiveFrame`, with the external conversion
`CameraUtil::ProcessImage` as a parameter: the pixels returned, and the memory and
the camera after the call. A fault when `handler` is null. -/
def QtMultimediaCamera.ReceiveFrame
    (ProcessImage : QImage → Nat → Nat → Bool → Bool → Bool → List Nat)
    (cam : QtMultimediaCamera) (w : World) : Option (List Nat × World × QtMultimediaCamera) :=
  match w.deref cam.handler with
  | none => none
  | some h =>
    some (ProcessImage h.camera_surface.current_frame cam.width cam.height cam.output_rgb
            cam.flip_horizontal cam.flip_vertical, w, cam)

/-- A call that reaches a camera between two `ReceiveFrame` calls: one of its
setters, or the toolkit presenting a frame to the surface of its handler. -/
inductive CameraCall where
  | SetFormat (output_format : OutputFormat)
  | SetResolution (resolution : Resolution)
  | SetFlip (flip : Flip)
  | SetEffect (effect : Effect)
  | present (frame : QVideoFrame)
  deriving DecidableEq, Repr

/-- The memory and the camera after one call. -/
def CameraCall.run (imageFormatFromPixelFormat : Nat → Nat) (s : World × QtMultimediaCamera) :
    CameraCall → World × QtMultimediaCamera
  | .SetFormat output_format => (s.1, s.2.SetFormat output_format)
  | .SetResolution resolution => (s.1, s.2.SetResolution resolution)
  | .SetFlip flip => (s.1, s.2.SetFlip flip)
  | .SetEffect effect => (s.1, s.2.SetEffect effect)
  | .present frame => (s.1.present imageFormatFromPixelFormat s.2.handler frame, s.2)

/-- The memory and the camera after a sequence of calls, made in order. -/
def runCameraCalls (imageFormatFromPixelFormat : Nat → Nat) (s : World × QtMultimediaCamera)
    (calls : List CameraCall) : World × QtMultimediaCamera :=
  calls.foldl (CameraCall.run imageFormatFromPixelFormat) s

/-! ### What the most recent calls set, read off the sequence of calls -/

/-- The value `pick` reads off the most recent call of the sequence that carries one. -/
def mostRecent {α : Type} (pick : CameraCall → Option α) (calls : List CameraCall) : Option α :=
  calls.reverse.findSome? pick

/-- The resolution a call sets, if it is a `SetResolution`. -/
def CameraCall.resolution : CameraCall → Option Resolution
  | .SetResolution resolution => some resolution
  | _ => none

/-- The output format a call sets, if it is a `SetFormat`. -/
def CameraCall.format : CameraCall → Option OutputFormat
  | .SetFormat output_format => some output_format
  | _ => none

/-- The flip a call sets, if it is a `SetFlip`. -/
def CameraCall.flip : CameraCall → Option Flip
  | .SetFlip flip => some flip
  | _ => none

/-- The frame a call stores, if it is a `present` that stores one (a valid frame). -/
def CameraCall.stored : CameraCall → Option QVideoFrame
  | .present frame => if frame.isValid then some frame else none
  | _ => none

/-- The image `present` constructs for a frame: the toolkit's image over the
bytes the mapped frame gives, with the size of the frame and the image format
of its pixel format. -/
def QVideoFrame.image (imageFormatFromPixelFormat : Nat → Nat) (frame : QVideoFrame) : QImage :=
  QImage.ofData frame.map.bits frame.width frame.height
    (imageFormatFromPixelFormat frame.pixelFormat)

/-- The settings the most recent `SetResolution`, `SetFormat` and `SetFlip`
calls of a sequence ask for, and those of `cam` where the sequence has no such call. -/
def settingsAfter (cam : QtMultimediaCamera) (calls : List CameraCall) : QtMultimediaCamera :=
  { handler := cam.handler,
    width := match mostRecent CameraCall.resolution calls with
      | some resolution => resolution.width
      | none => cam.width,
    height := match mostRecent CameraCall.resolution calls with
      | some resolution => resolution.height
      | none => cam.height,
    output_rgb := match mostRecent CameraCall.format calls with
      | some output_format => decide (output_format = OutputFormat.RGB565)
      | none => cam.output_rgb,
    flip_horizontal := match mostRecent CameraCall.flip calls with
      | some flip => decide (flip = Flip.Horizontal ∨ flip = Flip.Reverse)
      | none => cam.flip_horizontal,
    flip_vertical := match mostRecent CameraCall.flip calls with
      | some flip => decide (flip = Flip.Vertical ∨ flip = Flip.Reverse)
      | none => cam.flip_vertical }

/-- The image of the frame most recently stored by a `present` of the sequence,
and `before` where the sequence stores none. -/
def frameAfter (imageFormatFromPixelFormat : Nat → Nat) (before : QImage)
    (calls : List CameraCall) : QImage :=
  match mostRecent CameraCall.stored calls with
  | some frame => frame.image imageFormatFromPixelFormat
  | none => before

/-! ## The mutex of the surface and the threads that use it -/

/-- One step of a thread, seen from the surface: taking the mutex (the
constructor of a `QMutexLocker`, which waits while another thread holds it),
releasing it (`locker.unlock()`, or the destructor of the locker), writing
`current_frame`, reading `current_frame`, or a step that touches neither. -/
inductive Action where
  | lock
  | unlock
  | write
  | read
  | other
  deriving DecidableEq, Repr

/-- A call that uses the surface of one handler: `present` on the surface (with
whether the frame is valid), or `ReceiveFrame` of the camera that holds the handler. -/
inductive SurfaceCall where
  | present (isValid : Bool)
  | ReceiveFrame
  deriving DecidableEq, Repr

/-- The steps of a call, in program order. `present`: the test of
`frame.isValid()`, after which an invalid frame is refused; for a valid frame
the clone, its mapping, the image built over it, `QMutexLocker locker(&mutex)`,
`current_frame = image.copy()`, `locker.unlock()`, and the unmapping.
`ReceiveFrame`: `QMutexLocker locker(&handler->camera_surface.mutex)`,
`ProcessImage(handler->camera_surface.current_frame, ...)`, and the locker
released as the function returns. -/
def SurfaceCall.actions : SurfaceCall → List Action
  | .present true =>
    [Action.other, Action.other, Action.other, Action.other, Action.lock, Action.write,
      Action.unlock, Action.other]
  | .present false => [Action.other]
  | .ReceiveFrame => [Action.lock, Action.read, Action.unlock]

/-- Whether, in a sequence of steps started with the mutex held by the thread
or not (`held`), every write and read of `current_frame` is made while the
thread holds the mutex, the mutex is only taken when not held and only released
when held, and it is not held at the end. -/
def guarded : Bool → List Action → Bool
  | held, [] => !held
  | false, Action.lock :: rest => guarded true rest
  | true, Action.unlock :: rest => guarded false rest
  | true, Action.write :: rest => guarded true rest
  | true, Action.read :: rest => guarded true rest
  | held, Action.other :: rest => guarded held rest
  | _, _ => false

/-- A thread: whether it is in the middle of a read or write of `current_frame`,
and the steps it still has to make. -/
structure ThreadState where
  accessing : Bool
  todo : List Action
  deriving DecidableEq, Repr

/-- The threads that use one surface, and the thread that holds its mutex, if any. -/
structure System where
  mutex : Option ThreadId
  threads : ThreadId → ThreadState

/-- The system in which every thread `t` has the calls `calls t` to make, none
of them started, and the mutex is free. -/
def System.start (calls : ThreadId → List SurfaceCall) : System :=
  { mutex := none,
    threads := fun t => { accessing := false, todo := (calls t).flatMap SurfaceCall.actions } }

/-- The scheduler lets the thread `t` make its next step. A `lock` is made only
when the mutex is free, and the thread stays where it is otherwise. A read or a
write of `current_frame` takes two turns: it starts on the first and is over at
the second. -/
def System.step (s : System) (t : ThreadId) : System :=
  match (s.threads t).todo with
  | [] => s
  | Action.lock :: rest =>
    if s.mutex = none then
      { mutex := some t,
        threads := Function.update s.threads t { s.threads t with todo := rest } }
    else s
  | Action.unlock :: rest =>
    { mutex := none,
      threads := Function.update s.threads t { s.threads t with todo := rest } }
  | Action.write :: rest =>
    if (s.threads t).accessing then
      { s with threads := Function.update s.threads t { accessing := false, todo := rest } }
    else
      { s with threads := Function.update s.threads t { s.threads t with accessing := true } }
  | Action.read :: rest =>
    if (s.threads t).accessing then
      { s with threads := Function.update s.threads t { accessing := false, todo := rest } }
    else
      { s with threads := Function.update s.threads t { s.threads t with accessing := true } }
  | Action.other :: rest =>
    { s with threads := Function.update s.threads t { s.threads t with todo := rest } }

/-- The system after the scheduler has given the turns of `schedule`, in order. -/
def System.run (s : System) (schedule : List ThreadId) : System :=
  schedule.foldl System.step s

/-- Whether the next step of a sequence is a write or a read of `current_frame`. -/
def startsWithAccess : List Action → Bool
  | Action.write :: _ => true
  | Action.read :: _ => true
  | _ => false

/-- The invariant of the system: every thread has a guarded sequence of steps
left, holds the mutex exactly when that sequence starts with the mutex held,
and is in the middle of an access only when its next step is that access. -/
def System.Inv (s : System) : Prop :=
  ∀ t : ThreadId, ∃ held : Bool,
    guarded held (s.threads t).todo = true ∧
    (held = true ↔ s.mutex = some t) ∧
    ((s.threads t).accessing = true → startsWithAccess (s.threads t).todo = true)

/-- Two threads on one surface: thread 0 presents a valid frame, thread 1
calls `ReceiveFrame`, and the other threads do nothing. -/
def two_threads : ThreadId → List SurfaceCall
  | 0 => [SurfaceCall.present true]
  | 1 => [SurfaceCall.ReceiveFrame]
  | _ => []

/-! ## Concrete states -/

/-- A pool right after `Init` on the zero-initialised statics, with both slots free. -/
def pool_free : Pool := (Init 0 World.static_init).pool

/-- The pool `pool_free` with the first slot taken. -/
def pool_first_taken : Pool := (GetHandler pool_free).2

/-- The pool `pool_free` with both slots taken. -/
def pool_full : Pool := (GetHandler pool_first_taken).2

/-- The data members of a camera before its constructor has set the handler. -/
def members_zero : QtMultimediaCamera :=
  { handler := none, width := 0, height := 0, output_rgb := false, flip_horizontal := false,
    flip_vertical := false }

/-- The outcome of `Init` on thread 0 (the thread of the user interface) from the
zero-initialised statics, followed by the construction of one camera on thread 1. -/
def one_camera : Option (World × QtMultimediaCamera × Execution) :=
  QtMultimediaCamera.new members_zero true (Init 0 World.static_init) 1

/-- The memory of `one_camera`. -/
def world_one_camera : World :=
  match one_camera with
  | some r => r.1
  | none => World.static_init

/-- The camera of `one_camera`. -/
def camera_one : QtMultimediaCamera :=
  match one_camera with
  | some r => r.2.1
  | none => members_zero

/-- A valid frame of two by one pixels in `QVideoFrame::Format_RGB32`. -/
def frame_valid : QVideoFrame :=
  { isValid := true, buffer := [1, 2, 3, 4, 5, 6, 7, 8], width := 2, height := 1,
    pixelFormat := 3, mappable := true, mapped := false }

/-- An invalid frame. -/
def frame_invalid : QVideoFrame :=
  { isValid := false, buffer := [], width := 0, height := 0, pixelFormat := 0,
    mappable := false, mapped := false }

/-- The value of `QVideoFrame::Format_YUV420P`, one of the pixel formats
`supportedPixelFormats` lists. -/
def QVideoFrame.Format_YUV420P : Nat := 18

/-- A valid frame of two by two pixels in `QVideoFrame::Format_YUV420P`, with a
buffer that maps. -/
def frame_yuv : QVideoFrame :=
  { isValid := true, buffer := [16, 32, 48, 64, 128, 128], width := 2, height := 2,
    pixelFormat := QVideoFrame.Format_YUV420P, mappable := true, mapped := false }

/-- A valid frame in `QVideoFrame::Format_RGB32` whose buffer does not map. -/
def frame_unmappable : QVideoFrame :=
  { isValid := true, buffer := [1, 2, 3, 4, 5, 6, 7, 8], width := 2, height := 1,
    pixelFormat := 3, mappable := false, mapped := false }

/-- The toolkit's `QVideoFrame::imageFormatFromPixelFormat`, by the values of
the two enumerations: the pixel formats `ARGB32`, `ARGB32_Premultiplied`,
`RGB32`, `RGB24`, `RGB565`, `RGB555` and `ARGB8565_Premultiplied` have an image
format; every other pixel format, the BGR and YUV families among them, gives
`QImage::Format_Invalid`. -/
def imageFormatFromPixelFormat_toolkit : Nat → Nat
  | 1 => 5
  | 2 => 6
  | 3 => 4
  | 4 => 13
  | 5 => 7
  | 6 => 11
  | 7 => 8
  | _ => QImage.Format_Invalid

/-- A surface that holds the image of `frame_valid`. -/
def surface_sample : QtCameraSurface :=
  (QtCameraSurface.present imageFormatFromPixelFormat_toolkit
    { current_frame := QImage.null } frame_valid).2

/-- A conversion function that reports all it was given. -/
def ProcessImage_report (image : QImage) (width height : Nat)
    (output_rgb flip_horizontal flip_vertical : Bool) : List Nat :=
  image.bits ++ [image.width, image.height, image.format, width, height,
    output_rgb.toNat, flip_horizontal.toNat, flip_vertical.toNat]

/-- A sequence of calls on a camera. -/
def calls_sample : List CameraCall :=
  [CameraCall.SetResolution { width := 640, height := 480 }, CameraCall.present frame_valid,
   CameraCall.SetFlip Flip.Reverse, CameraCall.present frame_invalid,
   CameraCall.SetFormat OutputFormat.RGB565, CameraCall.SetEffect (Effect.other 1),
   CameraCall.SetResolution { width := 320, height := 240 }]

/-! ## Properties of the handler pool -/

theorem Pool.eq_of (p q : Pool) (hh : p.handlers = q.handlers) (hs : p.status = q.status) :
    p = q := by
  cases p; cases q; simp_all

theorem GetHandler_unfold (p : Pool) :
    GetHandler p =
      if p.status 0 = false then
        (p.handlers 0, { handlers := p.handlers, status := Function.update p.status 0 true })
      else if p.status 1 = false then
        (p.handlers 1, { handlers := p.handlers, status := Function.update p.status 1 true })
      else (none, p) := by
  simp only [GetHandler, GetHandler.loop]
  cases p.status 0 <;> cases p.status 1 <;> simp

theorem ReleaseHandler_unfold (p : Pool) (handler : HandlerPtr) :
    ReleaseHandler p handler =
      if p.handlers 0 = handler then
        { handlers := p.handlers, status := Function.update p.status 0 false }
      else if p.handlers 1 = handler then
        { handlers := p.handlers, status := Function.update p.status 1 false }
      else p := by
  simp only [ReleaseHandler, ReleaseHandler.loop]

theorem GetHandler_handlers (p : Pool) : (GetHandler p).2.handlers = p.handlers := by
  rw [GetHandler_unfold]
  split_ifs <;> rfl

theorem ReleaseHandler_handlers (p : Pool) (handler : HandlerPtr) :
    (ReleaseHandler p handler).handlers = p.handlers := by
  rw [ReleaseHandler_unfold]
  split_ifs <;> rfl

theorem AfterInit_GetHandler (p : Pool) (hp : AfterInit p) : AfterInit (GetHandler p).2 := by
  unfold AfterInit
  rw [GetHandler_handlers]
  exact hp

theorem AfterInit_ReleaseHandler (p : Pool) (handler : HandlerPtr) (hp : AfterInit p) :
    AfterInit (ReleaseHandler p handler) := by
  unfold AfterInit
  rw [ReleaseHandler_handlers]
  exact hp

theorem AfterInit_run (p : Pool) (c : PoolCall) (hp : AfterInit p) : AfterInit (c.run p) := by
  cases c with
  | get => exact AfterInit_GetHandler p hp
  | release handler => exact AfterInit_ReleaseHandler p handler hp

theorem AfterInit_runCalls (calls : List PoolCall) (p : Pool) (hp : AfterInit p) :
    AfterInit (runCalls p calls) := by
  induction calls generalizing p with
  | nil => exact hp
  | cons c rest ih => exact ih (c.run p) (AfterInit_run p c hp)

theorem Fin2_cases (i : Fin 2) : i = 0 ∨ i = 1 := by
  fin_cases i <;> simp

/-- After `Init` the pool holds two non-null pointers to different objects,
whatever the memory was before. -/
theorem AfterInit_Init (cur : ThreadId) (w : World) : AfterInit (Init cur w).pool := by
  refine ⟨⟨w.heap.length, ?_⟩, ⟨w.heap.length + 1, ?_⟩, ?_⟩
  · simp [Init, make_shared, Function.update]
  · simp [Init, make_shared, Function.update]
  · simp [Init, make_shared, Function.update]

/-- `Init` leaves `status` as it was: all free when called on the zero-initialised statics. -/
theorem Init_status (cur : ThreadId) (w : World) : (Init cur w).pool.status = w.pool.status := rfl

/-- C1. In every pool state after `Init`, `GetHandler` returns the handler of
the lowest-indexed free slot, which is not null, marks that slot taken and
leaves the other slot and the stored handlers as they were; when both slots
are taken it returns null and the pool is unchanged. -/
theorem GetHandler_lowest_free (p : Pool) (hp : AfterInit p) :
    (∀ i : Fin 2, p.status i = false → (∀ j : Fin 2, j < i → p.status j = true) →
        (GetHandler p).1 = p.handlers i ∧ (GetHandler p).1 ≠ none ∧
        (GetHandler p).2.status i = true ∧
        (∀ j : Fin 2, j ≠ i → (GetHandler p).2.status j = p.status j) ∧
        (GetHandler p).2.handlers = p.handlers) ∧
    ((∀ i : Fin 2, p.status i = true) → GetHandler p = (none, p)) := by
  obtain ⟨⟨a, ha⟩, ⟨b, hb⟩, _⟩ := hp
  constructor
  · intro i hi hlow
    rcases Fin2_cases i with rfl | rfl
    · rw [GetHandler_unfold, if_pos hi]
      refine ⟨rfl, by simp [ha], by simp, ?_, rfl⟩
      intro j hj
      simp [Function.update, hj]
    · have h0 : p.status 0 = true := hlow 0 (by decide)
      rw [GetHandler_unfold, if_neg (by simp [h0]), if_pos hi]
      refine ⟨rfl, by simp [hb], by simp, ?_, rfl⟩
      intro j hj
      simp [Function.update, hj]
  · intro hall
    rw [GetHandler_unfold, if_neg (by simp [hall 0]), if_neg (by simp [hall 1])]

/-- Witness of C1 on the pool with its first slot taken: the second slot is the
lowest free one, and `GetHandler` returns its handler, the object at address 1. -/
theorem GetHandler_lowest_free_witness :
    AfterInit pool_first_taken ∧
    pool_first_taken.status 0 = true ∧ pool_first_taken.status 1 = false ∧
    (GetHandler pool_first_taken).1 = some 1 ∧
    ((∀ i : Fin 2, pool_first_taken.status i = false →
        (∀ j : Fin 2, j < i → pool_first_taken.status j = true) →
        (GetHandler pool_first_taken).1 = pool_first_taken.handlers i ∧
        (GetHandler pool_first_taken).1 ≠ none ∧
        (GetHandler pool_first_taken).2.status i = true ∧
        (∀ j : Fin 2, j ≠ i →
          (GetHandler pool_first_taken).2.status j = pool_first_taken.status j) ∧
        (GetHandler pool_first_taken).2.handlers = pool_first_taken.handlers) ∧
      ((∀ i : Fin 2, pool_first_taken.status i = true) →
        GetHandler pool_first_taken = (none, pool_first_taken))) :=
  ⟨AfterInit_GetHandler _ (AfterInit_Init 0 World.static_init), rfl, rfl, rfl,
   GetHandler_lowest_free pool_first_taken
     (AfterInit_GetHandler _ (AfterInit_Init 0 World.static_init))⟩

theorem Held_of_GetHandler (p : Pool) (a : Nat) (hget : (GetHandler p).1 = some a) :
    Held (GetHandler p).2 a := by
  rw [GetHandler_unfold] at hget ⊢
  split_ifs at hget ⊢ with h0 h1
  · exact ⟨0, hget, by simp⟩
  · exact ⟨1, hget, by simp⟩

theorem Held_GetHandler (p : Pool) (hp : AfterInit p) (a : Nat) (hheld : Held p a) :
    (GetHandler p).1 ≠ some a ∧ Held (GetHandler p).2 a := by
  obtain ⟨_, _, hne⟩ := hp
  obtain ⟨i, hi, hs⟩ := hheld
  rw [GetHandler_unfold]
  rcases Fin2_cases i with rfl | rfl
  · rw [if_neg (by simp [hs])]
    split_ifs with h1
    · refine ⟨?_, 0, hi, by simp [Function.update, hs]⟩
      intro h
      exact hne (hi.trans h.symm)
    · exact ⟨by simp, 0, hi, hs⟩
  · split_ifs with h0 h1
    · refine ⟨?_, 1, hi, by simp [Function.update, hs]⟩
      intro h
      exact hne (h.trans hi.symm)
    · simp [hs] at h1
    · exact ⟨by simp, 1, hi, hs⟩

theorem Held_ReleaseHandler (p : Pool) (a : Nat) (handler : HandlerPtr)
    (hheld : Held p a) (hother : handler ≠ some a) : Held (ReleaseHandler p handler) a := by
  obtain ⟨i, hi, hs⟩ := hheld
  rw [ReleaseHandler_unfold]
  rcases Fin2_cases i with rfl | rfl
  · rw [if_neg (by rw [hi]; exact fun h => hother h.symm)]
    split_ifs with h1
    · exact ⟨0, hi, by simp [Function.update, hs]⟩
    · exact ⟨0, hi, hs⟩
  · split_ifs with h0 h1
    · exact ⟨1, hi, by simp [Function.update, hs]⟩
    · exact absurd (hi.symm.trans h1).symm hother
    · exact ⟨1, hi, hs⟩

theorem Held_runCalls (calls : List PoolCall) (p : Pool) (hp : AfterInit p) (a : Nat)
    (hheld : Held p a) (hnorel : PoolCall.release (some a) ∉ calls) :
    Held (runCalls p calls) a := by
  induction calls generalizing p with
  | nil => exact hheld
  | cons c rest ih =>
    have hc : c ≠ PoolCall.release (some a) := fun h => hnorel (by simp [h])
    have hrest : PoolCall.release (some a) ∉ rest := fun h => hnorel (by simp [h])
    refine ih (c.run p) (AfterInit_run p c hp) ?_ hrest
    cases c with
    | get => exact (Held_GetHandler p hp a hheld).2
    | release handler =>
      exact Held_ReleaseHandler p a handler hheld (fun h => hc (by rw [h]))

/-- C2. Acquire is exclusive. Start from a pool after `Init` (with every slot
free, or in any other state of `status`) and make any calls `before`; if `GetHandler` then returns the handler `a`,
and the calls `between` that follow do not contain `ReleaseHandler(a)`, the next
`GetHandler` does not return `a`. In particular (no call in between) two
successive `GetHandler` calls never return the same non-null handler. -/
theorem GetHandler_exclusive (p0 : Pool) (hp : AfterInit p0)
    (before between : List PoolCall) (a : Nat)
    (hget : (GetHandler (runCalls p0 before)).1 = some a)
    (hnorel : PoolCall.release (some a) ∉ between) :
    (GetHandler (runCalls (GetHandler (runCalls p0 before)).2 between)).1 ≠ some a ∧
    (GetHandler (GetHandler (runCalls p0 before)).2).1 ≠ some a := by
  have h1 : AfterInit (runCalls p0 before) := AfterInit_runCalls before p0 hp
  have h2 : AfterInit (GetHandler (runCalls p0 before)).2 := AfterInit_GetHandler _ h1
  have hheld : Held (GetHandler (runCalls p0 before)).2 a := Held_of_GetHandler _ a hget
  constructor
  · have h3 := AfterInit_runCalls between _ h2
    exact (Held_GetHandler _ h3 a (Held_runCalls between _ h2 a hheld hnorel)).1
  · exact (Held_GetHandler _ h2 a hheld).1

/-- Witness of C2 from the all-free pool: the second `GetHandler` returns the
handler at address 1; the first handler is then released and acquired again,
and the `GetHandler` after that does not return the handler at address 1. -/
theorem GetHandler_exclusive_witness :
    (∀ i : Fin 2, pool_free.status i = false) ∧
    (GetHandler (runCalls pool_free [PoolCall.get])).1 = some 1 ∧
    PoolCall.release (some 1) ∉ [PoolCall.release (some 0), PoolCall.get] ∧
    (GetHandler (runCalls (GetHandler (runCalls pool_free [PoolCall.get])).2
        [PoolCall.release (some 0), PoolCall.get])).1 ≠ some 1 ∧
    (GetHandler (GetHandler (runCalls pool_free [PoolCall.get])).2).1 ≠ some 1 :=
  ⟨fun _ => rfl, rfl, by decide,
   GetHandler_exclusive pool_free (AfterInit_Init 0 World.static_init)
     [PoolCall.get] [PoolCall.release (some 0), PoolCall.get] 1 rfl (by decide)⟩

/-- C3. Handles are reusable: in a pool state after `Init` with a free slot,
`GetHandler` followed by `ReleaseHandler` of the handler it returned gives back
the pool exactly as it was (the whole `status` array and the handlers), so the
next `GetHandler` returns that same handler again, which is not null. -/
theorem GetHandler_ReleaseHandler_restores (p : Pool) (hp : AfterInit p)
    (hfree : ∃ i : Fin 2, p.status i = false) :
    ReleaseHandler (GetHandler p).2 (GetHandler p).1 = p ∧
    (GetHandler (ReleaseHandler (GetHandler p).2 (GetHandler p).1)).1 = (GetHandler p).1 ∧
    (GetHandler p).1 ≠ none := by
  obtain ⟨⟨a, ha⟩, ⟨b, hb⟩, hne⟩ := hp
  have hrestore : ReleaseHandler (GetHandler p).2 (GetHandler p).1 = p ∧
      (GetHandler p).1 ≠ none := by
    rw [GetHandler_unfold]
    split_ifs with h0 h1
    · rw [ReleaseHandler_unfold]
      simp only [if_true]
      refine ⟨Pool.eq_of _ _ rfl ?_, by simp [ha]⟩
      funext j
      rcases Fin2_cases j with rfl | rfl <;> simp [Function.update, h0]
    · rw [ReleaseHandler_unfold]
      simp only [if_neg hne, if_true]
      refine ⟨Pool.eq_of _ _ rfl ?_, by simp [hb]⟩
      funext j
      rcases Fin2_cases j with rfl | rfl <;> simp [Function.update, h1]
    · obtain ⟨i, hi⟩ := hfree
      rcases Fin2_cases i with rfl | rfl
      · exact absurd hi h0
      · exact absurd hi h1
  exact ⟨hrestore.1, by rw [hrestore.1], hrestore.2⟩

/-- Witness of C3 on the pool with its first slot taken. -/
theorem GetHandler_ReleaseHandler_restores_witness :
    (∃ i : Fin 2, pool_first_taken.status i = false) ∧
    (GetHandler pool_first_taken).1 = some 1 ∧
    ReleaseHandler (GetHandler pool_first_taken).2 (GetHandler pool_first_taken).1
      = pool_first_taken ∧
    (GetHandler (ReleaseHandler (GetHandler pool_first_taken).2
      (GetHandler pool_first_taken).1)).1 = (GetHandler pool_first_taken).1 ∧
    (GetHandler pool_first_taken).1 ≠ none :=
  ⟨⟨1, rfl⟩, rfl,
   GetHandler_ReleaseHandler_restores pool_first_taken
     (AfterInit_GetHandler _ (AfterInit_Init 0 World.static_init)) ⟨1, rfl⟩⟩

/-- C4. In every pool state after `Init`, `ReleaseHandler(h)` for a pooled
handler `h` sets the status of the slot holding `h` to free and leaves the
status of the other slot and both stored handlers as they were; for an `h` that
is in neither slot (null included) the pool is unchanged. -/
theorem ReleaseHandler_frame (p : Pool) (hp : AfterInit p) (h : HandlerPtr) :
    (∀ i : Fin 2, p.handlers i = h →
        (ReleaseHandler p h).status i = false ∧
        (∀ j : Fin 2, j ≠ i → (ReleaseHandler p h).status j = p.status j) ∧
        (ReleaseHandler p h).handlers = p.handlers) ∧
    ((∀ i : Fin 2, p.handlers i ≠ h) → ReleaseHandler p h = p) ∧
    (∀ i : Fin 2, p.handlers i ≠ none) := by
  obtain ⟨⟨a, ha⟩, ⟨b, hb⟩, hne⟩ := hp
  refine ⟨?_, ?_, ?_⟩
  · intro i hi
    rw [ReleaseHandler_unfold]
    rcases Fin2_cases i with rfl | rfl
    · rw [if_pos hi]
      refine ⟨by simp, ?_, rfl⟩
      intro j hj
      simp [Function.update, hj]
    · rw [if_neg (fun h0 => hne (h0.trans hi.symm)), if_pos hi]
      refine ⟨by simp, ?_, rfl⟩
      intro j hj
      simp [Function.update, hj]
  · intro hnot
    rw [ReleaseHandler_unfold, if_neg (hnot 0), if_neg (hnot 1)]
  · intro i
    rcases Fin2_cases i with rfl | rfl
    · simp [ha]
    · simp [hb]

/-- Witness of C4 on the full pool: releasing the handler at address 1 frees the second slot only. -/
theorem ReleaseHandler_frame_witness :
    pool_full.handlers 1 = some 1 ∧ pool_full.status 0 = true ∧ pool_full.status 1 = true ∧
    ((∀ i : Fin 2, pool_full.handlers i = some 1 →
        (ReleaseHandler pool_full (some 1)).status i = false ∧
        (∀ j : Fin 2, j ≠ i → (ReleaseHandler pool_full (some 1)).status j = pool_full.status j) ∧
        (ReleaseHandler pool_full (some 1)).handlers = pool_full.handlers) ∧
    ((∀ i : Fin 2, pool_full.handlers i ≠ some 1) → ReleaseHandler pool_full (some 1) = pool_full) ∧
    (∀ i : Fin 2, pool_full.handlers i ≠ none)) :=
  ⟨rfl, rfl, rfl,
   ReleaseHandler_frame pool_full
     (AfterInit_GetHandler _ (AfterInit_GetHandler _ (AfterInit_Init 0 World.static_init)))
     (some 1)⟩

/-! ## Pause and resume of the emulation -/

theorem Init_handlers_0 (cur : ThreadId) (w : World) :
    (Init cur w).pool.handlers 0 = some w.heap.length := by
  simp [Init, make_shared, Function.update]

theorem Init_handlers_1 (cur : ThreadId) (w : World) :
    (Init cur w).pool.handlers 1 = some (w.heap.length + 1) := by
  simp [Init, make_shared, Function.update]

theorem Init_heap_0 (cur : ThreadId) (w : World) :
    (Init cur w).heap[w.heap.length]? = some (QtMultimediaCameraHandler.new cur) := by
  have h : (Init cur w).heap
      = w.heap ++ [QtMultimediaCameraHandler.new cur, QtMultimediaCameraHandler.new cur] := by
    simp [Init, make_shared]
  rw [h, List.getElem?_append_right (Nat.le_refl _)]
  simp

theorem Init_heap_1 (cur : ThreadId) (w : World) :
    (Init cur w).heap[w.heap.length + 1]? = some (QtMultimediaCameraHandler.new cur) := by
  have h : (Init cur w).heap
      = w.heap ++ [QtMultimediaCameraHandler.new cur, QtMultimediaCameraHandler.new cur] := by
    simp [Init, make_shared]
  rw [h, List.getElem?_append_right (Nat.le_succ _)]
  simp

/-- C8. Right after `Init`, on any thread and from any memory, no pooled
handler has a camera: `onEmulationPause` calls `StopCamera` on the first
handler, whose `camera` is null, and faults, while `onEmulationResume`, which
tests `CameraAvailable` first, finishes and changes nothing. -/
theorem onEmulationPause_after_Init_faults (cur : ThreadId) (w : World) :
    ((Init cur w).deref ((Init cur w).pool.handlers 0)).map (fun h => h.camera) = some none ∧
    onEmulationPause (Init cur w) = none ∧
    onEmulationResume (Init cur w) = some (Init cur w) := by
  refine ⟨?_, ?_, ?_⟩
  · simp [World.deref, Init_handlers_0, Init_heap_0, QtMultimediaCameraHandler.new]
  · simp [onEmulationPause, onEmulationPause.loop, Init_handlers_0, Init_heap_0,
      QtMultimediaCameraHandler.new, QtMultimediaCameraHandler.StopCamera]
  · simp [onEmulationResume, onEmulationResume.loop, Init_handlers_0, Init_heap_0,
      Init_handlers_1, Init_heap_1,
      QtMultimediaCameraHandler.new, QtMultimediaCameraHandler.CameraAvailable]

/-- The fault of `onEmulationPause` on the memory `Init` builds from the
zero-initialised statics. -/
theorem onEmulationPause_static_init_faults :
    onEmulationPause (Init 0 World.static_init) = none := by
  rfl

/-! ## The settings of a camera and the frames of its surface -/

/-- C9. For every `Flip` value `SetFlip` makes `flip_horizontal` true exactly
for `Horizontal` and `Reverse` and `flip_vertical` true exactly for `Vertical`
and `Reverse`, whatever the flags were before (so `None` clears both and
`Reverse` sets both), and leaves `width`, `height`, `output_rgb` and the handler
as they were. -/
theorem SetFlip_flags (cam : QtMultimediaCamera) (flip : Flip) :
    ((cam.SetFlip flip).flip_horizontal = true ↔ flip = Flip.Horizontal ∨ flip = Flip.Reverse) ∧
    ((cam.SetFlip flip).flip_vertical = true ↔ flip = Flip.Vertical ∨ flip = Flip.Reverse) ∧
    (cam.SetFlip Flip.None).flip_horizontal = false ∧
    (cam.SetFlip Flip.None).flip_vertical = false ∧
    (cam.SetFlip Flip.Reverse).flip_horizontal = true ∧
    (cam.SetFlip Flip.Reverse).flip_vertical = true ∧
    (cam.SetFlip flip).width = cam.width ∧
    (cam.SetFlip flip).height = cam.height ∧
    (cam.SetFlip flip).output_rgb = cam.output_rgb ∧
    (cam.SetFlip flip).handler = cam.handler := by
  cases flip <;> simp [QtMultimediaCamera.SetFlip]

theorem QImage.copy_eq (image : QImage) : image.copy = image := rfl

/-- What `present` does with a frame: it returns false exactly for an invalid
frame, and then leaves `current_frame` as it was; for a valid frame it returns
true and `current_frame` becomes the image the toolkit constructs over the
mapped frame, whatever was stored before. -/
theorem present_result (imageFormatFromPixelFormat : Nat → Nat)
    (surface : QtCameraSurface) (frame : QVideoFrame) :
    ((surface.present imageFormatFromPixelFormat frame).1 = false ↔ frame.isValid = false) ∧
    (frame.isValid = false →
      (surface.present imageFormatFromPixelFormat frame).2 = surface) ∧
    (frame.isValid = true →
      (surface.present imageFormatFromPixelFormat frame).1 = true ∧
      (surface.present imageFormatFromPixelFormat frame).2.current_frame
        = frame.image imageFormatFromPixelFormat) := by
  cases hv : frame.isValid <;>
    simp [QtCameraSurface.present, hv, QImage.copy_eq, QVideoFrame.image, QVideoFrame.map]

/-- The frames for which the stored image is that of the frame: when the buffer
maps, the size is not empty and the pixel format has an image format,
`current_frame` gets the bytes, the width and the height of the frame. -/
theorem present_stores_mapped_frame (imageFormatFromPixelFormat : Nat → Nat)
    (surface : QtCameraSurface) (frame : QVideoFrame) (hvalid : frame.isValid = true)
    (hmap : frame.mappable = true) (hw : frame.width ≠ 0) (hh : frame.height ≠ 0)
    (hformat : imageFormatFromPixelFormat frame.pixelFormat ≠ QImage.Format_Invalid) :
    (surface.present imageFormatFromPixelFormat frame).2.current_frame
      = { bits := frame.buffer, width := frame.width, height := frame.height,
          format := imageFormatFromPixelFormat frame.pixelFormat } := by
  simp [QtCameraSurface.present, hvalid, QImage.copy_eq, QVideoFrame.map, QVideoFrame.bits,
    QImage.ofData, hmap, hw, hh, hformat]

/-- C10. `present` on a valid frame the image constructor refuses. The frame
`frame_yuv` is valid, two by two pixels, in the advertised pixel format
`Format_YUV420P`, which has no image format: `present` returns true and
`current_frame`, which held the image of an earlier frame, becomes the null
image, of width and height 0 and without the bytes of the frame. The same
happens, under any format conversion, for a valid frame whose buffer does not
map. -/
theorem present_valid_frame_stores_null_image :
    frame_yuv.isValid = true ∧ frame_yuv.width = 2 ∧ frame_yuv.height = 2 ∧
    surface_sample.current_frame = { bits := [1, 2, 3, 4, 5, 6, 7, 8], width := 2, height := 1,
                                     format := 4 } ∧
    (surface_sample.present imageFormatFromPixelFormat_toolkit frame_yuv).1 = true ∧
    (surface_sample.present imageFormatFromPixelFormat_toolkit frame_yuv).2.current_frame
      = QImage.null ∧
    (surface_sample.present imageFormatFromPixelFormat_toolkit frame_yuv).2.current_frame.width
      ≠ frame_yuv.width ∧
    (∀ conversion : Nat → Nat,
      (surface_sample.present conversion frame_unmappable).1 = true ∧
      (surface_sample.present conversion frame_unmappable).2.current_frame = QImage.null) := by
  refine ⟨rfl, rfl, rfl, rfl, rfl, rfl, by decide, ?_⟩
  intro conversion
  exact ⟨rfl, rfl⟩

theorem mostRecent_concat {α : Type} (pick : CameraCall → Option α) (calls : List CameraCall)
    (c : CameraCall) :
    mostRecent pick (calls ++ [c]) =
      match pick c with
      | some b => some b
      | none => mostRecent pick calls := by
  simp only [mostRecent, List.reverse_append, List.reverse_cons, List.reverse_nil,
    List.nil_append, List.singleton_append, List.findSome?_cons]
  cases pick c <;> rfl

theorem runCameraCalls_concat (fmt : Nat → Nat) (s : World × QtMultimediaCamera)
    (calls : List CameraCall) (c : CameraCall) :
    runCameraCalls fmt s (calls ++ [c]) = CameraCall.run fmt (runCameraCalls fmt s calls) c := by
  simp [runCameraCalls, List.foldl_append]

theorem runCameraCalls_settings (fmt : Nat → Nat) (w : World) (cam : QtMultimediaCamera)
    (calls : List CameraCall) :
    (runCameraCalls fmt (w, cam) calls).2 = settingsAfter cam calls := by
  induction calls using List.reverseRecOn with
  | nil => rfl
  | append_singleton l c ih =>
    rw [runCameraCalls_concat]
    cases c <;>
      simp [CameraCall.run, ih, settingsAfter, mostRecent_concat, CameraCall.resolution,
        CameraCall.format, CameraCall.flip, QtMultimediaCamera.SetFormat,
        QtMultimediaCamera.SetResolution, QtMultimediaCamera.SetFlip,
        QtMultimediaCamera.SetEffect]

theorem World.deref_present (fmt : Nat → Nat) (w : World) (ptr : HandlerPtr)
    (h : QtMultimediaCameraHandler) (frame : QVideoFrame) (hlive : w.deref ptr = some h) :
    (w.present fmt ptr frame).deref ptr
      = some { h with camera_surface := (h.camera_surface.present fmt frame).2 } := by
  cases ptr with
  | none => simp [World.deref] at hlive
  | some a =>
    simp only [World.deref, Option.bind] at hlive
    have hlt : a < w.heap.length := (List.getElem?_eq_some.mp hlive).1
    simp [World.present, hlive, World.deref, World.store, hlt]

theorem runCameraCalls_frame (fmt : Nat → Nat) (w : World) (cam : QtMultimediaCamera)
    (h : QtMultimediaCameraHandler) (hlive : w.deref cam.handler = some h)
    (calls : List CameraCall) :
    ∃ h1, (runCameraCalls fmt (w, cam) calls).1.deref cam.handler = some h1 ∧
      h1.camera_surface.current_frame
        = frameAfter fmt h.camera_surface.current_frame calls := by
  induction calls using List.reverseRecOn with
  | nil => exact ⟨h, hlive, rfl⟩
  | append_singleton l c ih =>
    obtain ⟨h1, hderef, hframe⟩ := ih
    rw [runCameraCalls_concat]
    have hcam : (runCameraCalls fmt (w, cam) l).2.handler = cam.handler := by
      rw [runCameraCalls_settings]; rfl
    cases c with
    | present frame =>
      refine ⟨{ h1 with camera_surface := (h1.camera_surface.present fmt frame).2 }, ?_, ?_⟩
      · simp only [CameraCall.run, hcam]
        exact World.deref_present fmt _ _ h1 frame hderef
      · cases hv : frame.isValid <;>
          simp [QtCameraSurface.present, hv, hframe, frameAfter, mostRecent_concat,
            CameraCall.stored, QVideoFrame.image, QImage.copy_eq, QVideoFrame.map]
    | _ =>
      exact ⟨h1, by simpa [CameraCall.run] using hderef,
        by simpa [frameAfter, mostRecent_concat, CameraCall.stored] using hframe⟩

/-- C6. Pixel conversion is fully delegated. For a camera whose handler is
live, after any sequence of setter calls and presented frames, and for every
conversion function `ProcessImage`, `ReceiveFrame` returns exactly
`ProcessImage` applied to the image of the frame most recently stored by
`present` and to the width, height, output format flag and flip flags the most
recent `SetResolution`, `SetFormat` and `SetFlip` calls set; the memory and the
camera after `ReceiveFrame` are those before it. -/
theorem ReceiveFrame_delegates
    (ProcessImage : QImage → Nat → Nat → Bool → Bool → Bool → List Nat)
    (imageFormatFromPixelFormat : Nat → Nat) (w : World) (cam : QtMultimediaCamera)
    (h : QtMultimediaCameraHandler) (hlive : w.deref cam.handler = some h)
    (calls : List CameraCall) :
    (runCameraCalls imageFormatFromPixelFormat (w, cam) calls).2.ReceiveFrame ProcessImage
        (runCameraCalls imageFormatFromPixelFormat (w, cam) calls).1
      = some
          (ProcessImage
              (frameAfter imageFormatFromPixelFormat h.camera_surface.current_frame calls)
              (settingsAfter cam calls).width (settingsAfter cam calls).height
              (settingsAfter cam calls).output_rgb (settingsAfter cam calls).flip_horizontal
              (settingsAfter cam calls).flip_vertical,
            (runCameraCalls imageFormatFromPixelFormat (w, cam) calls).1,
            (runCameraCalls imageFormatFromPixelFormat (w, cam) calls).2) := by
  obtain ⟨h1, hderef, hframe⟩ :=
    runCameraCalls_frame imageFormatFromPixelFormat w cam h hlive calls
  have hset := runCameraCalls_settings imageFormatFromPixelFormat w cam calls
  have hcam : (runCameraCalls imageFormatFromPixelFormat (w, cam) calls).2.handler
      = cam.handler := by
    rw [hset]; rfl
  simp only [QtMultimediaCamera.ReceiveFrame, hcam, hderef, hframe]
  rw [hset]

/-- Witness of C6 on `camera_one` after `calls_sample`: the frame is the valid
one presented, the resolution the second one set. -/
theorem ReceiveFrame_delegates_witness :
    ((runCameraCalls id (world_one_camera, camera_one) calls_sample).2.ReceiveFrame
        ProcessImage_report
        (runCameraCalls id (world_one_camera, camera_one) calls_sample).1).map (fun r => r.1)
      = some [1, 2, 3, 4, 5, 6, 7, 8, 2, 1, 3, 320, 240, 1, 1, 1] ∧
    (runCameraCalls id (world_one_camera, camera_one) calls_sample).2.ReceiveFrame
        ProcessImage_report (runCameraCalls id (world_one_camera, camera_one) calls_sample).1
      = some
          (ProcessImage_report
              (frameAfter id QImage.null calls_sample)
              (settingsAfter camera_one calls_sample).width
              (settingsAfter camera_one calls_sample).height
              (settingsAfter camera_one calls_sample).output_rgb
              (settingsAfter camera_one calls_sample).flip_horizontal
              (settingsAfter camera_one calls_sample).flip_vertical,
            (runCameraCalls id (world_one_camera, camera_one) calls_sample).1,
            (runCameraCalls id (world_one_camera, camera_one) calls_sample).2) :=
  ⟨rfl, ReceiveFrame_delegates ProcessImage_report id world_one_camera camera_one
    { thread := 0,
      camera := some { active := false, isAvailable := true, viewfinder := true },
      camera_surface := { current_frame := QImage.null } } rfl calls_sample⟩

/-! ## The mutex of the surface -/

theorem guarded_append (l1 l2 : List Action) (held : Bool) (h1 : guarded held l1 = true)
    (h2 : guarded false l2 = true) : guarded held (l1 ++ l2) = true := by
  induction l1 generalizing held with
  | nil =>
    cases held
    · simpa using h2
    · simp [guarded] at h1
  | cons a rest ih =>
    cases a <;> cases held <;> simp_all [guarded]

theorem guarded_actions (c : SurfaceCall) : guarded false c.actions = true := by
  cases c with
  | present isValid => cases isValid <;> rfl
  | ReceiveFrame => rfl

theorem guarded_calls (calls : List SurfaceCall) :
    guarded false (calls.flatMap SurfaceCall.actions) = true := by
  induction calls with
  | nil => rfl
  | cons c rest ih =>
    rw [List.flatMap_cons]
    exact guarded_append _ _ false (guarded_actions c) ih

theorem guarded_access_held (held : Bool) (l : List Action)
    (hg : guarded held l = true) (ha : startsWithAccess l = true) : held = true := by
  cases l with
  | nil => simp [startsWithAccess] at ha
  | cons a rest =>
    cases a <;> cases held <;> simp_all [guarded, startsWithAccess]

theorem System.Inv_start (calls : ThreadId → List SurfaceCall) : (System.start calls).Inv := by
  intro t
  exact ⟨false, guarded_calls (calls t), by simp [System.start], by simp [System.start]⟩

theorem System.Inv_step (s : System) (t : ThreadId) (hinv : s.Inv) : (s.step t).Inv := by
  obtain ⟨held, hg, hm, ha⟩ := hinv t
  unfold System.step
  cases htodo : (s.threads t).todo with
  | nil => simpa using hinv
  | cons a rest =>
    rw [htodo] at hg ha
    cases a with
    | lock =>
      have hheld : held = false := by cases held <;> simp_all [guarded]
      subst hheld
      simp only []
      split_ifs with hfree
      · intro u
        by_cases hu : u = t
        · subst hu
          refine ⟨true, by simpa [guarded] using hg, by simp, ?_⟩
          intro hacc
          have := ha (by simpa using hacc)
          simp [startsWithAccess] at this
        · obtain ⟨hu_held, hug, hum, hua⟩ := hinv u
          refine ⟨hu_held, by simpa [Function.update, hu] using hug, ?_,
            by simpa [Function.update, hu] using hua⟩
          have : hu_held = false := by
            cases hu_held
            · rfl
            · have := hum.mp rfl
              rw [hfree] at this
              exact absurd this (by simp)
          subst this
          simp
          exact fun h => hu h.symm
      · exact hinv
    | unlock =>
      have hheld : held = true := by cases held <;> simp_all [guarded]
      subst hheld
      have hmt : s.mutex = some t := hm.mp rfl
      simp only []
      intro u
      by_cases hu : u = t
      · subst hu
        refine ⟨false, by simpa [guarded] using hg, by simp, ?_⟩
        intro hacc
        have := ha (by simpa using hacc)
        simp [startsWithAccess] at this
      · obtain ⟨hu_held, hug, hum, hua⟩ := hinv u
        refine ⟨hu_held, by simpa [Function.update, hu] using hug, ?_,
          by simpa [Function.update, hu] using hua⟩
        have : hu_held = false := by
          cases hu_held
          · rfl
          · have := hum.mp rfl
            rw [hmt] at this
            exact absurd (Option.some.inj this).symm hu
        subst this
        simp
    | write =>
      have hheld : held = true := by cases held <;> simp_all [guarded]
      subst hheld
      simp only []
      split_ifs with hacc
      · intro u
        by_cases hu : u = t
        · subst hu
          exact ⟨true, by simpa [guarded] using hg, by simpa using hm, by simp⟩
        · obtain ⟨hu_held, hug, hum, hua⟩ := hinv u
          exact ⟨hu_held, by simpa [Function.update, hu] using hug, by simpa using hum,
            by simpa [Function.update, hu] using hua⟩
      · intro u
        by_cases hu : u = t
        · subst hu
          exact ⟨true, by simpa [htodo] using hg, by simpa using hm,
            by simp [htodo, startsWithAccess]⟩
        · obtain ⟨hu_held, hug, hum, hua⟩ := hinv u
          exact ⟨hu_held, by simpa [Function.update, hu] using hug, by simpa using hum,
            by simpa [Function.update, hu] using hua⟩
    | read =>
      have hheld : held = true := by cases held <;> simp_all [guarded]
      subst hheld
      simp only []
      split_ifs with hacc
      · intro u
        by_cases hu : u = t
        · subst hu
          exact ⟨true, by simpa [guarded] using hg, by simpa using hm, by simp⟩
        · obtain ⟨hu_held, hug, hum, hua⟩ := hinv u
          exact ⟨hu_held, by simpa [Function.update, hu] using hug, by simpa using hum,
            by simpa [Function.update, hu] using hua⟩
      · intro u
        by_cases hu : u = t
        · subst hu
          exact ⟨true, by simpa [htodo] using hg, by simpa using hm,
            by simp [htodo, startsWithAccess]⟩
        · obtain ⟨hu_held, hug, hum, hua⟩ := hinv u
          exact ⟨hu_held, by simpa [Function.update, hu] using hug, by simpa using hum,
            by simpa [Function.update, hu] using hua⟩
    | other =>
      simp only []
      intro u
      by_cases hu : u = t
      · subst hu
        refine ⟨held, by cases held <;> simpa [guarded] using hg, by simpa using hm, ?_⟩
        intro hacc
        have := ha (by simpa using hacc)
        simp [startsWithAccess] at this
      · obtain ⟨hu_held, hug, hum, hua⟩ := hinv u
        exact ⟨hu_held, by simpa [Function.update, hu] using hug, by simpa using hum,
          by simpa [Function.update, hu] using hua⟩

theorem System.Inv_run (schedule : List ThreadId) (s : System) (hinv : s.Inv) :
    (s.run schedule).Inv := by
  induction schedule generalizing s with
  | nil => exact hinv
  | cons t rest ih => exact ih (s.step t) (System.Inv_step s t hinv)

/-- C7. The frame buffer is guarded by the mutex of the surface. In the steps
of `present` and of `ReceiveFrame` the write and the read of `current_frame` are
made between taking and releasing the mutex; and whatever calls the threads
make and however the scheduler interleaves them, a thread in the middle of a
read or write of `current_frame` holds the mutex, so no two threads are ever in
the middle of one at the same time. -/
theorem current_frame_guarded_by_mutex (calls : ThreadId → List SurfaceCall)
    (schedule : List ThreadId) :
    (∀ c : SurfaceCall, guarded false c.actions = true) ∧
    (∀ t : ThreadId, (((System.start calls).run schedule).threads t).accessing = true →
      ((System.start calls).run schedule).mutex = some t) ∧
    (∀ t1 t2 : ThreadId, (((System.start calls).run schedule).threads t1).accessing = true →
      (((System.start calls).run schedule).threads t2).accessing = true → t1 = t2) := by
  have hinv := System.Inv_run schedule _ (System.Inv_start calls)
  have hheld : ∀ t : ThreadId,
      (((System.start calls).run schedule).threads t).accessing = true →
      ((System.start calls).run schedule).mutex = some t := by
    intro t hacc
    obtain ⟨held, hg, hm, ha⟩ := hinv t
    exact hm.mp (guarded_access_held held _ hg (ha hacc))
  refine ⟨guarded_actions, hheld, ?_⟩
  intro t1 t2 h1 h2
  have e1 := hheld t1 h1
  have e2 := hheld t2 h2
  rw [e1] at e2
  exact Option.some.inj e2

/-- Witness of C7: thread 0 presents a valid frame and thread 1 calls
`ReceiveFrame`. After six turns thread 0 is in the middle of its write; thread
1, given the next two turns, is still waiting for the mutex, which thread 0 holds. -/
theorem current_frame_guarded_by_mutex_witness :
    (((System.start two_threads).run [0, 0, 0, 0, 0, 0, 1, 1]).threads 0).accessing = true ∧
    (((System.start two_threads).run [0, 0, 0, 0, 0, 0, 1, 1]).threads 1).todo
      = SurfaceCall.ReceiveFrame.actions ∧
    ((System.start two_threads).run [0, 0, 0, 0, 0, 0, 1, 1]).mutex = some 0 :=
  ⟨rfl, rfl, (current_frame_guarded_by_mutex two_threads [0, 0, 0, 0, 0, 0, 1, 1]).2.1 0 rfl⟩

/-! ## The thread a handler method runs on -/

theorem one_camera_eq : one_camera = some (world_one_camera, camera_one,
    { thread := 0, method := HandlerMethod.CreateCamera true }) := by
  rfl

/-- C5, the counterexample. The handler of `camera_one` lives on thread 0;
`StopCapture` called on thread 1 runs `StopCamera` on thread 1. -/
theorem StopCapture_runs_on_calling_thread :
    (world_one_camera.deref camera_one.handler).map (fun h => h.thread) = some 0 ∧
    (camera_one.StopCapture world_one_camera 1).map (fun r => r.2)
      = some { thread := 1, method := HandlerMethod.StopCamera } := by
  constructor <;> rfl

/-- C5, as amended. For a camera whose handler is live and has a camera, and
for every calling thread `cur`: `StartCapture` runs `StartCamera` on the thread
the handler lives on; `StopCapture` and `OnServicePaused` run `StopCamera` on
`cur`, which is the thread of the handler only when the caller is on it. -/
theorem StartCapture_runs_on_handler_thread (w : World) (cam : QtMultimediaCamera)
    (h : QtMultimediaCameraHandler) (c : QCamera) (cur : ThreadId)
    (hlive : w.deref cam.handler = some h) (hcamera : h.camera = some c) :
    (∃ w1, cam.StartCapture w cur
      = some (w1, { thread := h.thread, method := HandlerMethod.StartCamera })) ∧
    (∃ w1, cam.StopCapture w cur
      = some (w1, { thread := cur, method := HandlerMethod.StopCamera })) ∧
    (∃ w1, cam.OnServicePaused w cur
      = some (w1, { thread := cur, method := HandlerMethod.StopCamera })) := by
  cases hptr : cam.handler with
  | none => simp [World.deref, hptr] at hlive
  | some a =>
    have hheap : w.heap[a]? = some h := by simpa [World.deref, hptr] using hlive
    rw [hptr] at hlive
    refine ⟨?_, ?_, ?_⟩
    · by_cases hthread : h.thread = cur
      · simp [QtMultimediaCamera.StartCapture, hlive, hthread, callDirect, hptr, hheap,
          HandlerMethod.body, QtMultimediaCameraHandler.StartCamera, hcamera]
      · simp [QtMultimediaCamera.StartCapture, hlive, hthread, invokeMethod, hptr, hheap,
          HandlerMethod.body, QtMultimediaCameraHandler.StartCamera, hcamera]
    · simp [QtMultimediaCamera.StopCapture, callDirect, hptr, hheap,
        HandlerMethod.body, QtMultimediaCameraHandler.StopCamera, hcamera]
    · simp [QtMultimediaCamera.OnServicePaused, callDirect, hptr, hheap,
        HandlerMethod.body, QtMultimediaCameraHandler.StopCamera, hcamera]

/-- Witness of C5 as amended, on `camera_one` called from thread 1. -/
theorem StartCapture_runs_on_handler_thread_witness :
    world_one_camera.deref camera_one.handler
      = some { thread := 0,
               camera := some { active := false, isAvailable := true, viewfinder := true },
               camera_surface := { current_frame := QImage.null } } ∧
    (∃ w1, camera_one.StartCapture world_one_camera 1
      = some (w1, { thread := 0, method := HandlerMethod.StartCamera })) ∧
    (∃ w1, camera_one.StopCapture world_one_camera 1
      = some (w1, { thread := 1, method := HandlerMethod.StopCamera })) ∧
    (∃ w1, camera_one.OnServicePaused world_one_camera 1
      = some (w1, { thread := 1, method := HandlerMethod.StopCamera })) :=
  ⟨rfl, StartCapture_runs_on_handler_thread world_one_camera camera_one _
    { active := false, isAvailable := true, viewfinder := true } 1 rfl rfl⟩

/-- What `OnServiceResumed` does: it runs `StartCamera` on the calling thread,
with no test of the thread the handler lives on. -/
theorem OnServiceResumed_runs_on_calling_thread (w : World) (cam : QtMultimediaCamera)
    (cur : ThreadId) (w1 : World) (e : Execution)
    (hrun : cam.OnServiceResumed w cur = some (w1, e)) : e.thread = cur := by
  unfold QtMultimediaCamera.OnServiceResumed callDirect at hrun
  split at hrun
  · simp at hrun
  · split at hrun
    · simp at hrun
    · split at hrun
      · simp at hrun
      · simp only [Option.some.injEq, Prod.mk.injEq] at hrun
        rw [← hrun.2]

end Camera
